import Mathlib

/-
Verification development for the Amazon ASIN reconciliation app (src/app.py).

The embedding below translates the program's pure core into Lean:
  * `clean_numeric`   — the numeric normalizer (app.py lines 18-24);
  * `find_robust_col` — the schema-tolerant column resolver (lines 35-42);
  * `get_brand_robust`/`BRAND_MAP` — the brand classifier (lines 9-16, 26-33);
  * `adCampSummary`/`adAsinTotal`/`invSummary` — the per-source groupby
    aggregations (lines 99-117);
  * `mergedOutput`    — the merge pipeline and derived ratio columns
    (lines 119-139);
  * `runApp`          — the ASIN-column validation gate (lines 86-89);
  * `display_metrics_ACOS` and `brandAdSegment` — the brand-tab dashboard
    rollup (lines 151-167, 175-184).

Modelling conventions: pandas cell values are modelled by `PyVal`
(string / int / float / float-NaN / Python None).  Monetary and count values
are modelled as exact fractions (`Frac`, an executable canonical-form
rational): the program's float arithmetic on the inputs exercised here stays
within exactly representable territory and no claim depends on float
rounding, while an executable fraction type lets every concrete run of the
pipeline be evaluated inside the kernel.  `pd.to_numeric` is modelled on the
fragment the claims exercise: optionally signed decimal integer and
decimal-point literals plus the "nan" token; scientific notation and
infinity tokens are outside the modelled fragment.  Its integer results are
`numpy.int64` scalars, which do not subclass Python's `int` and so fail the
`isinstance(val, (int, float))` test on re-entry; its float results are
`numpy.float64`, which does subclass `float` — the `PyVal` type keeps the
first distinction and folds away the second.  Python
`str.upper`/`str.lower` are modelled on the ASCII fragment (all brand
signals and header keywords are ASCII).
-/

namespace AsinWise

/-! ### Executable exact fractions

`Frac` stands in for the float values flowing through the pipeline.  Values
are kept in canonical form (positive denominator, coprime) by the smart
constructor `Frac.mk'`, so structural equality coincides with numeric
equality for every value built by the operations below. -/

structure Frac where
  num : ℤ
  den : ℕ
deriving DecidableEq, Repr

/-- Build the canonical fraction `n / d`.  A zero `d` (which the pipeline's
guarded divisions never produce) maps to `0`. -/
def Frac.mk' (n d : ℤ) : Frac :=
  if d = 0 then ⟨0, 1⟩
  else
    let s : ℤ := if d < 0 then -1 else 1
    let n' : ℤ := s * n
    let d' : ℕ := (s * d).toNat
    let g : ℕ := Nat.gcd n'.natAbs d'
    ⟨n' / (g : ℤ), d' / g⟩

def Frac.ofInt (n : ℤ) : Frac := ⟨n, 1⟩

def Frac.add (a b : Frac) : Frac :=
  Frac.mk' (a.num * (b.den : ℤ) + b.num * (a.den : ℤ)) ((a.den : ℤ) * (b.den : ℤ))

def Frac.neg (a : Frac) : Frac := ⟨-a.num, a.den⟩

def Frac.sub (a b : Frac) : Frac := a.add b.neg

def Frac.div (a b : Frac) : Frac :=
  Frac.mk' (a.num * (b.den : ℤ)) ((a.den : ℤ) * b.num)

/-- Strict order by cross multiplication (denominators are positive for
canonical values). -/
def Frac.blt (a b : Frac) : Bool :=
  a.num * (b.den : ℤ) < b.num * (a.den : ℤ)

instance : OfNat Frac n := ⟨⟨(n : ℤ), 1⟩⟩
instance : Add Frac := ⟨Frac.add⟩
instance : Sub Frac := ⟨Frac.sub⟩
instance : Div Frac := ⟨Frac.div⟩
instance : LT Frac := ⟨fun a b => Frac.blt a b = true⟩

instance : DecidableRel ((· < ·) : Frac → Frac → Prop) :=
  fun a b => inferInstanceAs (Decidable (Frac.blt a b = true))

/-- Left-fold summation with initial value `0`, as `pandas` `.sum()` over a
column. -/
def Frac.sum (l : List Frac) : Frac := l.foldl Frac.add 0

/-! ### Python-level string primitives -/

/-- Characters treated as trimmable whitespace by Python's `str.strip()`
(ASCII fragment plus the non-breaking space). -/
def isPySpace (c : Char) : Bool :=
  c = ' ' || c = '\t' || c = '\n' || c = '\r' || c = '\x0b' || c = '\x0c' || c = '\xa0'

/-- Python `str.strip()`: drop whitespace from both ends. -/
def pyStrip (l : List Char) : List Char :=
  ((l.dropWhile isPySpace).reverse.dropWhile isPySpace).reverse

/-- Fuel-indexed worker for `replaceAll`; the fuel dominates the length of
the list being scanned, so the `0` fallback arm is never reached from
`replaceAll`. -/
def replaceAllAux (pat rep : List Char) : ℕ → List Char → List Char
  | _, [] => []
  | 0, l => l
  | fuel + 1, c :: rest =>
    if pat ≠ [] ∧ pat.isPrefixOf (c :: rest) then
      rep ++ replaceAllAux pat rep fuel ((c :: rest).drop pat.length)
    else
      c :: replaceAllAux pat rep fuel rest

/-- Python `str.replace(pat, rep)`: replace every non-overlapping occurrence
of `pat`, scanning left to right and never rescanning the replacement.  The
program only calls this with non-empty patterns; an empty pattern is mapped
to the identity here. -/
def replaceAll (pat rep l : List Char) : List Char :=
  replaceAllAux pat rep l.length l

/-- Python `"needle" in haystack` substring test. -/
def isSubListOf (needle : List Char) : List Char → Bool
  | [] => needle.isPrefixOf []
  | c :: t => needle.isPrefixOf (c :: t) || isSubListOf needle t

/-- ASCII fragment of Python `str.upper()`. -/
def pyUpperL (l : List Char) : List Char := l.map Char.toUpper

/-- ASCII fragment of Python `str.lower()`. -/
def pyLowerL (l : List Char) : List Char := l.map Char.toLower

/-! ### Cell values and the numeric normalizer (app.py lines 18-24) -/

/-- A pandas cell value as far as `clean_numeric` distinguishes inputs:
a string, a Python int, a `numpy.int64` scalar, a finite float (modelled as
`Frac`), the float NaN, or Python `None` (standing for any other non-string
non-numeric value).  `numpy.int64` — what `pd.to_numeric` returns for an
integer string — must be kept apart from the Python int because
`numpy.int64` does NOT subclass `int`, so it fails the
`isinstance(val, (int, float))` test of app.py line 24; `numpy.float64`
does subclass `float` and is therefore folded into the `float` case. -/
inductive PyVal where
  | str (s : String)
  | int (n : ℤ)
  | npInt (n : ℤ)
  | float (q : Frac)
  | nan
  | none
deriving DecidableEq, Repr

/-- Value of a digit string read in base 10. -/
def digitsToNat (l : List Char) : ℕ :=
  l.foldl (fun a c => 10 * a + (c.toNat - 48)) 0

/-- Modelled fragment of `pd.to_numeric` applied to a single cleaned string:
an optional sign followed by a decimal integer literal (giving a
`numpy.int64` scalar), a decimal-point literal (giving a `numpy.float64`,
which subclasses `float`), or the token "nan" (giving NaN).  Everything else
fails, which in the program raises and is caught by the `except` clause of
`clean_numeric`. -/
def pyParseNumeric (cs : List Char) : Option PyVal :=
  let sg : ℤ × List Char :=
    match cs with
    | '+' :: t => (1, t)
    | '-' :: t => (-1, t)
    | t => (1, t)
  let body := sg.2
  if body.all Char.isDigit && !body.isEmpty then
    some (.npInt (sg.1 * digitsToNat body))
  else if pyLowerL body = "nan".toList then
    some .nan
  else
    let intPart := body.takeWhile (fun c => c ≠ '.')
    match body.dropWhile (fun c => c ≠ '.') with
    | '.' :: frac =>
      if intPart.all Char.isDigit && frac.all Char.isDigit
          && !(intPart.isEmpty && frac.isEmpty) && !frac.contains '.' then
        some (.float (Frac.mk' (sg.1 * ((digitsToNat intPart : ℤ) * 10 ^ frac.length
          + (digitsToNat frac : ℤ))) (10 ^ frac.length)))
      else
        Option.none
    | _ => Option.none

/-- The cleaning chain of `clean_numeric`:
`val.replace('AED','').replace('$','').replace('\xa0','').replace(',','').strip()`. -/
def cleanString (s : String) : List Char :=
  pyStrip (replaceAll [','] []
    (replaceAll ['\xa0'] []
      (replaceAll ['$'] []
        (replaceAll ['A', 'E', 'D'] [] s.toList))))

/-- `clean_numeric` (app.py lines 18-24).  Strings are cleaned and parsed,
with parse failure caught and mapped to `0.0`; any value satisfying
`isinstance(val, (int, float))` — Python ints, Python/numpy floats, and so
also the float NaN — is returned unchanged; every other value maps to
`0.0`, including the `numpy.int64` scalars that `pd.to_numeric` itself
produces for integer strings, since `numpy.int64` does not subclass
`int`. -/
def clean_numeric : PyVal → PyVal
  | .str s =>
    match pyParseNumeric (cleanString s) with
    | some v => v
    | Option.none => .float 0
  | .int n => .int n
  | .npInt _ => .float 0
  | .float q => .float q
  | .nan => .nan
  | .none => .float 0

/-! ### Column resolver (app.py lines 35-42) -/

/-- The default `exclude` list of `find_robust_col`. -/
def defaultExclude : List String :=
  ["acos", "roas", "cpc", "ctr", "rate", "new-to-brand"]

/-- `str(col).strip().lower()` — the cleaned header a column is matched on. -/
def headerClean (col : String) : List Char :=
  pyLowerL (pyStrip col.toList)

/-- `find_robust_col` (app.py lines 35-42): return the first column, in
declaration order, whose cleaned header contains some keyword as a substring
and contains no exclude-term as a substring; a keyword hit on an excluded
header skips that header and the scan continues. -/
def find_robust_col (cols keywords exclude : List String) : Option String :=
  cols.find? (fun col =>
    let cc := headerClean col
    keywords.any (fun kw => isSubListOf (pyLowerL kw.toList) cc)
      && !(exclude.any (fun ex => isSubListOf (pyLowerL ex.toList) cc)))

/-! ### Brand classifier (app.py lines 9-16 and 26-33) -/

/-- `BRAND_MAP`: insertion-ordered brand table (a Python dict preserves
insertion order, so iteration order is the declaration order below). -/
def BRAND_MAP : List (String × String) :=
  [("MA", "Maison de l’Avenir"),
   ("CL", "Creation Lamis"),
   ("JPD", "Jean Paul Dupont"),
   ("PC", "Paris Collection"),
   ("DC", "Dorall Collection"),
   ("CPT", "CP Trendies")]

/-- The separators tried after a brand prefix: `["_", " ", "-", " |"]`. -/
def brandSeps : List String := ["_", " ", "-", " |"]

/-- `str(name).upper().replace('’', "'").strip()` — the scan text a product
name is classified on. -/
def normScan (name : String) : List Char :=
  pyStrip (replaceAll ['’'] ['\''] (pyUpperL name.toList))

/-- One brand's signal test on a normalized scan text `n`: the uppercased
full name occurs as a substring of `n`, or `n` starts with the brand prefix
followed by one of the separators. -/
def brandHit (pfx full : String) (n : List Char) : Bool :=
  isSubListOf (replaceAll ['’'] ['\''] (pyUpperL full.toList)) n
    || brandSeps.any (fun sep => (pfx ++ sep).toList.isPrefixOf n)

/-- `get_brand_robust` (app.py lines 26-33): `pd.isna` input is `Unmapped`;
otherwise the first brand of `BRAND_MAP` whose signal fires on the
normalized name wins, and no hit is `Unmapped`. -/
def get_brand_robust (name : Option String) : String :=
  match name with
  | Option.none => "Unmapped"
  | some nm =>
    match BRAND_MAP.find? (fun br => brandHit br.1 br.2 (normScan nm)) with
    | some br => br.2
    | Option.none => "Unmapped"

/-! ### Source rows after column resolution and value cleaning

The merge pipeline (app.py lines 91-139) operates on the three raw tables
after the resolver has located the relevant columns and `clean_numeric` has
been applied to the metric columns (lines 91-97).  A row is modelled by its
resolved fields; metric cells are `Frac` values (the cleaned floats).  The
inventory report also carries a condition-code column (per the report
format), which — as the definitions below make explicit — the program never
reads. -/

structure AdRow where
  campaign : String
  asin : String
  sales : Frac
  spend : Frac
  clicks : Frac
  imps : Frac
  orders : Frac
deriving DecidableEq, Repr

structure BizRow where
  asin : String
  title : String
  sales : Frac
deriving DecidableEq, Repr

structure InvRow where
  asin : String
  condition : String
  qty : Frac
deriving DecidableEq, Repr

/-! ### Grouping (pandas `groupby(...).agg/sum`, app.py lines 105-117)

`pandas` `groupby` with default settings emits one row per distinct key,
keys sorted ascending.  The sort is modelled by an insertion sort over a
code-point comparator; only key membership matters to the claims below. -/

/-- Code-point lexicographic strict order on strings, as Python compares
them. -/
def strLtB : List Char → List Char → Bool
  | [], [] => false
  | [], _ :: _ => true
  | _ :: _, [] => false
  | a :: as, b :: bs =>
    if a.toNat < b.toNat then true
    else if b.toNat < a.toNat then false
    else strLtB as bs

def strLeB (a b : String) : Bool := strLtB a.toList b.toList || a == b

/-- Lexicographic order on `(campaign, asin)` pairs, the group key of the
per-campaign aggregation. -/
def pairLeB (p q : String × String) : Bool :=
  if strLtB p.1.toList q.1.toList then true
  else if strLtB q.1.toList p.1.toList then false
  else strLeB p.2 q.2

def insertSorted (le : α → α → Bool) (x : α) : List α → List α
  | [] => [x]
  | y :: t => if le x y then x :: y :: t else y :: insertSorted le x t

/-- Insertion sort; stands in for the ascending key sort of `groupby`. -/
def sortKeys (le : α → α → Bool) : List α → List α
  | [] => []
  | x :: t => insertSorted le x (sortKeys le t)

/-- `ad_df_raw.groupby([camp_col, ad_asin_col]).agg({...: 'sum'})`
(app.py lines 112-115): one row per distinct (campaign, asin) pair with all
five metric columns summed. -/
def adCampSummary (rows : List AdRow) : List AdRow :=
  (sortKeys pairLeB ((rows.map (fun r => (r.campaign, r.asin))).dedup)).map
    (fun k =>
      let grp := rows.filter (fun r => r.campaign == k.1 && r.asin == k.2)
      { campaign := k.1, asin := k.2,
        sales := Frac.sum (grp.map AdRow.sales),
        spend := Frac.sum (grp.map AdRow.spend),
        clicks := Frac.sum (grp.map AdRow.clicks),
        imps := Frac.sum (grp.map AdRow.imps),
        orders := Frac.sum (grp.map AdRow.orders) })

/-- `ad_df_raw.groupby(ad_asin_col).agg({ad_sales_col: 'sum'})` renamed to
`ASIN_AD_TOTAL` (app.py line 117). -/
def adAsinTotal (rows : List AdRow) : List (String × Frac) :=
  (sortKeys strLeB ((rows.map AdRow.asin).dedup)).map
    (fun a => (a, Frac.sum ((rows.filter (fun r => r.asin == a)).map AdRow.sales)))

/-- `inv_df_raw.groupby(inv_asin_col)[inv_qty_col].sum()` (app.py line 105):
quantities are summed over every row of an identifier; no row is filtered
out, and in particular the condition-code column plays no role. -/
def invSummary (rows : List InvRow) : List (String × Frac) :=
  (sortKeys strLeB ((rows.map InvRow.asin).dedup)).map
    (fun a => (a, Frac.sum ((rows.filter (fun r => r.asin == a)).map InvRow.qty)))

/-! ### The merge and the derived ratio columns (app.py lines 119-139) -/

/-- Association-list lookup defaulting to `0`; models a left merge against a
uniquely-keyed right table followed by the pipeline's `fillna(0)`. -/
def lookupD (l : List (String × Frac)) (k : String) : Frac :=
  match l.find? (fun p => p.1 == k) with
  | some p => p.2
  | Option.none => 0

/-- The `Available_Inventory` column: a summed quantity when an inventory
file was uploaded, else the string sentinel "No File" (app.py lines
123-126). -/
inductive InvVal where
  | qty (q : Frac)
  | noFile
deriving DecidableEq, Repr

/-- A guarded ratio column:
`(n / d).replace([np.inf, -np.inf], 0).fillna(0)` — division by zero yields
`±inf` (nonzero numerator) or `NaN` (zero numerator), and both are replaced
by `0`; a nonzero denominator yields the plain finite quotient. -/
def safeDiv (n d : Frac) : Frac :=
  if d = 0 then 0 else n / d

/-- One output row of `merged_df` with the columns the claims talk about:
the business-side key and fields, the campaign-level ad fields brought in by
the first left merge (zero-filled when unmatched), `ASIN_AD_TOTAL`, the
inventory column, and the derived columns of lines 128-139. -/
structure MergedRow where
  campaign : String
  asin : String
  title : String
  brand : String
  bizSales : Frac
  adSales : Frac
  adSpend : Frac
  adClicks : Frac
  adImps : Frac
  adOrders : Frac
  asinAdTotal : Frac
  inventory : InvVal
  organicSales : Frac
  drr : Frac
  adContribution : Frac
  roas : Frac
  acos : Frac
  tacos : Frac
  ctr : Frac
  cvr : Frac
deriving DecidableEq, Repr

/-- Build one merged row from a business row and its (optional) matching
per-campaign ad group.  An unmatched left row gets NaN ad fields, which the
pipeline's `fillna(0)` turns into `0`, and a NaN campaign cell, which
`fillna(0)` then `.replace(0, "None")` turns into "None"; `.replace("",
"None")` also maps an empty campaign string to "None" (lines 121 and 128).
The `Brand` column was computed on the business table before the merge
(line 97).  The ratio columns follow lines 130-139. -/
def buildRow (b : BizRow) (g : Option AdRow) (adTot : Frac) (inv : InvVal) :
    MergedRow :=
  let adSales := match g with | some a => a.sales | Option.none => 0
  let adSpend := match g with | some a => a.spend | Option.none => 0
  let adClicks := match g with | some a => a.clicks | Option.none => 0
  let adImps := match g with | some a => a.imps | Option.none => 0
  let adOrders := match g with | some a => a.orders | Option.none => 0
  { campaign :=
      match g with
      | some a => if a.campaign == "" then "None" else a.campaign
      | Option.none => "None"
    asin := b.asin
    title := b.title
    brand := get_brand_robust (some b.title)
    bizSales := b.sales
    adSales := adSales
    adSpend := adSpend
    adClicks := adClicks
    adImps := adImps
    adOrders := adOrders
    asinAdTotal := adTot
    inventory := inv
    organicSales := b.sales.sub adTot
    drr := b.sales / 30
    adContribution := safeDiv adTot b.sales
    roas := safeDiv adSales adSpend
    acos := safeDiv adSpend adSales
    tacos := safeDiv adSpend b.sales
    ctr := safeDiv adClicks adImps
    cvr := safeDiv adOrders adClicks }

/-- The rows contributed by one business row: the first merge
(`pd.merge(biz_df_raw, ad_camp_summary, left_on=biz_asin_col,
right_on=ad_asin_col, how='left')`, line 120) keeps every left row,
duplicating it once per matching (campaign, asin) ad group and emitting a
single zero-filled row when no group matches; the uniquely-keyed
`ad_asin_total` and `inv_summary` left merges (lines 121-124) are lookups
with `fillna(0)`. -/
def mergeBlock (camp : List AdRow) (tot : List (String × Frac))
    (invS : Option (List (String × Frac))) (b : BizRow) : List MergedRow :=
  let ms := camp.filter (fun g => g.asin == b.asin)
  let adTot := lookupD tot b.asin
  let iv : InvVal :=
    match invS with
    | Option.none => .noFile
    | some l => .qty (lookupD l b.asin)
  match ms with
  | [] => [buildRow b Option.none adTot iv]
  | _ :: _ => ms.map (fun g => buildRow b (some g) adTot iv)

/-- `merged_df` (app.py lines 119-139): the full merge keyed on the business
report, with the derived columns computed per row.  `inv` is `none` when no
inventory file was uploaded. -/
def mergedOutput (biz : List BizRow) (ad : List AdRow)
    (inv : Option (List InvRow)) : List MergedRow :=
  biz.flatMap (mergeBlock (adCampSummary ad) (adAsinTotal ad) (inv.map invSummary))

/-! ### The validation gate (app.py lines 67-89) -/

structure AdInput where
  headers : List String
  rows : List AdRow
deriving DecidableEq

structure BizInput where
  headers : List String
  rows : List BizRow
deriving DecidableEq

/-- Keyword list used to locate the ad report's ASIN column (line 68). -/
def adAsinKeywords : List String := ["Advertised ASIN", "ASIN"]

/-- Keyword list used to locate the business report's ASIN column
(line 69). -/
def bizAsinKeywords : List String := ["(Child) ASIN", "Child ASIN", "ASIN"]

/-- The `st.warning` text shown when the gate fires (line 88). -/
def stopWarning : String :=
  "Missing required ASIN columns. Please check your file headers."

/-- Outcome of a run: either stopped at the validation gate with a warning
and no table, or the unified table was produced. -/
inductive RunOutcome where
  | stopped (warning : String)
  | emitted (table : List MergedRow)
deriving DecidableEq

/-- The run with its validation gate (lines 86-89): if either ASIN column
resolution fails, the app warns and `st.stop()`s before any merged table
exists; otherwise the merge pipeline runs. -/
def runApp (ad : AdInput) (biz : BizInput) (inv : Option (List InvRow)) :
    RunOutcome :=
  match find_robust_col ad.headers adAsinKeywords defaultExclude,
      find_robust_col biz.headers bizAsinKeywords defaultExclude with
  | some _, some _ => .emitted (mergedOutput biz.rows ad.rows inv)
  | _, _ => .stopped stopWarning

/-! ### The dashboard rollup (app.py lines 151-167 and 175-184) -/

/-- The numeric value behind the dashboard's ACOS metric
(`f"{(t_spend/a_sales):.1%}" if a_sales > 0 else "0.0%"`, line 167): total
spend of the segment divided by total ad sales of the segment, `0` when the
segment's ad sales are not positive. -/
def display_metrics_ACOS (adSeg : List AdRow) : Frac :=
  let a_sales := Frac.sum (adSeg.map AdRow.sales)
  let t_spend := Frac.sum (adSeg.map AdRow.spend)
  if 0 < a_sales then t_spend / a_sales else 0

/-- The raw ad rows feeding a brand tab's dashboard (lines 177-181):
the ASINs of the merged rows classified to the brand, then
`ad_df_raw[ad_df_raw[ad_asin_col].isin(brand_asins)]`. -/
def brandAdSegment (biz : List BizRow) (ad : List AdRow)
    (inv : Option (List InvRow)) (brand : String) : List AdRow :=
  let tbl := mergedOutput biz ad inv
  let bAsins := ((tbl.filter (fun r => r.brand == brand)).map MergedRow.asin).dedup
  ad.filter (fun r => bAsins.contains r.asin)

/-! ### Helper lemmas -/

theorem replaceAllAux_irrel (pat rep : List Char) :
    ∀ (f₁ : ℕ) (l : List Char) (f₂ : ℕ), l.length ≤ f₁ → l.length ≤ f₂ →
      replaceAllAux pat rep f₁ l = replaceAllAux pat rep f₂ l := by
  intro f₁
  induction f₁ with
  | zero =>
    intro l f₂ h1 _
    cases l with
    | nil => cases f₂ <;> rfl
    | cons c rest => simp at h1
  | succ n ih =>
    intro l f₂ h1 h2
    cases l with
    | nil => cases f₂ <;> rfl
    | cons c rest =>
      cases f₂ with
      | zero => simp at h2
      | succ m =>
        simp only [replaceAllAux]
        by_cases hc : pat ≠ [] ∧ pat.isPrefixOf (c :: rest) = true
        · rw [if_pos hc, if_pos hc]
          have hpat : 1 ≤ pat.length := by
            rcases pat with _ | ⟨p, ps⟩
            · exact absurd rfl hc.1
            · simp
          have hlen : ((c :: rest).drop pat.length).length ≤ n ∧
              ((c :: rest).drop pat.length).length ≤ m := by
            simp only [List.length_drop, List.length_cons]
            simp only [List.length_cons] at h1 h2
            omega
          rw [ih _ _ hlen.1 hlen.2]
        · rw [if_neg hc, if_neg hc]
          simp only [List.length_cons] at h1 h2
          rw [ih rest m (by omega) (by omega)]

theorem replaceAll_cons_pos (pat rep : List Char) (c : Char) (rest : List Char)
    (h1 : pat ≠ []) (h2 : pat.isPrefixOf (c :: rest) = true) :
    replaceAll pat rep (c :: rest)
      = rep ++ replaceAll pat rep ((c :: rest).drop pat.length) := by
  have hpat : 1 ≤ pat.length := by
    rcases pat with _ | ⟨p, ps⟩
    · exact absurd rfl h1
    · simp
  unfold replaceAll
  simp only [List.length_cons, replaceAllAux, if_pos (And.intro h1 h2)]
  rw [replaceAllAux_irrel pat rep rest.length _ ((c :: rest).drop pat.length).length]
  · simp only [List.length_drop, List.length_cons]; omega
  · exact le_refl _

theorem replaceAll_cons_neg (pat rep : List Char) (c : Char) (rest : List Char)
    (h : ¬(pat ≠ [] ∧ pat.isPrefixOf (c :: rest) = true)) :
    replaceAll pat rep (c :: rest) = c :: replaceAll pat rep rest := by
  unfold replaceAll
  simp only [List.length_cons, replaceAllAux, if_neg h]

theorem cleanString_aed (s : String) :
    cleanString ("AED " ++ s) = cleanString s := by
  have hl : ("AED " ++ s).toList = 'A' :: 'E' :: 'D' :: ' ' :: s.toList := by
    simp [String.toList, String.data_append]
  unfold cleanString
  rw [hl]
  rw [replaceAll_cons_pos _ _ _ _ (by simp) (by simp [List.isPrefixOf])]
  have hdrop : List.drop ['A', 'E', 'D'].length ('A' :: 'E' :: 'D' :: ' ' :: s.toList)
      = ' ' :: s.toList := rfl
  rw [hdrop]
  simp only [List.nil_append]
  rw [replaceAll_cons_neg _ _ _ _ (by simp [List.isPrefixOf])]
  rw [replaceAll_cons_neg ['$'] _ _ _ (by simp [List.isPrefixOf])]
  rw [replaceAll_cons_neg ['\xa0'] _ _ _ (by simp [List.isPrefixOf])]
  rw [replaceAll_cons_neg [','] _ _ _ (by simp [List.isPrefixOf])]
  simp [pyStrip, List.dropWhile, isPySpace]

theorem pyParseNumeric_shape (cs : List Char) (v : PyVal)
    (h : pyParseNumeric cs = some v) :
    (∃ n, v = .npInt n) ∨ (∃ q, v = .float q) ∨ v = .nan := by
  simp only [pyParseNumeric] at h
  split_ifs at h with h1 h2
  · exact Or.inl ⟨_, (Option.some.injEq _ _ ▸ h).symm⟩
  · exact Or.inr (Or.inr (Option.some.injEq _ _ ▸ h).symm)
  · split at h
    · split_ifs at h
      exact Or.inr (Or.inl ⟨_, (Option.some.injEq _ _ ▸ h).symm⟩)
    · exact absurd h (by simp)

theorem find?_eq_get_of_earliest {α : Type} (p : α → Bool) :
    ∀ (l : List α) (i : Fin l.length), p (l.get i) = true →
      (∀ k : Fin l.length, k.val < i.val → p (l.get k) = false) →
      l.find? p = some (l.get i) := by
  intro l
  induction l with
  | nil => exact fun i => absurd i.isLt (by simp)
  | cons a t ih =>
    intro i hp hmin
    rcases i with ⟨iv, hiv⟩
    cases iv with
    | zero =>
      simp only [List.get] at hp
      simp [List.find?, hp]
    | succ m =>
      have ha : p a = false := hmin ⟨0, by omega⟩ (by simp)
      have hrec := ih ⟨m, by simpa using hiv⟩ (by simpa using hp)
        (fun k hk => by
          have hkt : k.val < t.length := k.isLt
          have := hmin ⟨k.val + 1, by simp only [List.length_cons]; omega⟩
            (by simpa using hk)
          simpa using this)
      simp only [List.find?, ha]
      simpa using hrec

theorem mem_insertSorted {α : Type} (le : α → α → Bool) (x a : α) (l : List α) :
    a ∈ insertSorted le x l ↔ a = x ∨ a ∈ l := by
  induction l with
  | nil => simp [insertSorted]
  | cons y t ih =>
    simp only [insertSorted]
    by_cases h : le x y = true
    · simp [h]
    · simp only [if_neg h, List.mem_cons, ih]
      tauto

theorem mem_sortKeys {α : Type} (le : α → α → Bool) (a : α) (l : List α) :
    a ∈ sortKeys le l ↔ a ∈ l := by
  induction l with
  | nil => simp [sortKeys]
  | cons x t ih => simp [sortKeys, mem_insertSorted, ih]

theorem lookupD_map_keys (keys : List String) (f : String → Frac) (a : String) :
    lookupD (keys.map (fun k => (k, f k))) a = if a ∈ keys then f a else 0 := by
  induction keys with
  | nil => simp [lookupD]
  | cons k t ih =>
    simp only [List.map_cons, lookupD, List.find?]
    by_cases hk : (k == a) = true
    · have hka : k = a := eq_of_beq hk
      subst hka
      simp [hk]
    · have hka : ¬(a = k) := fun hc => hk (hc ▸ beq_self_eq_true k)
      simp only [hk, cond_false, List.mem_cons]
      simp only [lookupD] at ih
      rw [ih]
      by_cases hmem : a ∈ t
      · simp [hmem, hka]
      · simp [hmem, hka]

theorem buildRow_asin (b : BizRow) (g : Option AdRow) (adTot : Frac)
    (iv : InvVal) : (buildRow b g adTot iv).asin = b.asin := rfl

theorem safeDiv_den_zero (n : Frac) : safeDiv n 0 = 0 := by
  simp [safeDiv]

theorem countP_map_const_asin (l : List AdRow) (b : BizRow) (adTot : Frac)
    (iv : InvVal) (a : String) :
    (l.map (fun g => buildRow b (some g) adTot iv)).countP (fun r => r.asin == a)
      = if b.asin == a then l.length else 0 := by
  induction l with
  | nil => simp
  | cons x t ih =>
    simp only [List.map_cons, List.countP_cons, ih, buildRow_asin]
    by_cases hba : (b.asin == a) = true <;> simp [hba]

theorem countP_mergeBlock (camp : List AdRow) (tot : List (String × Frac))
    (invS : Option (List (String × Frac))) (b : BizRow) (a : String) :
    (mergeBlock camp tot invS b).countP (fun r => r.asin == a)
      = if b.asin == a then max 1 (camp.countP (fun g => g.asin == a)) else 0 := by
  simp only [mergeBlock]
  cases hms : camp.filter (fun g => g.asin == b.asin) with
  | nil =>
    have hcount : camp.countP (fun g => g.asin == b.asin) = 0 := by
      rw [List.countP_eq_length_filter, hms]
      rfl
    by_cases hba : (b.asin == a) = true
    · have hea : b.asin = a := eq_of_beq hba
      subst hea
      simp [List.countP_cons, buildRow_asin, hba, hcount]
    · simp [List.countP_cons, buildRow_asin, hba]
  | cons g gs =>
    rw [countP_map_const_asin]
    have hlen : (g :: gs).length = camp.countP (fun x => x.asin == b.asin) := by
      rw [List.countP_eq_length_filter, hms]
    by_cases hba : (b.asin == a) = true
    · have hea : b.asin = a := eq_of_beq hba
      subst hea
      rw [if_pos hba, if_pos hba, ← hlen]
      simp only [List.length_cons]
      omega
    · rw [if_neg hba, if_neg hba]

theorem mem_mergedOutput (biz : List BizRow) (ad : List AdRow)
    (inv : Option (List InvRow)) (r : MergedRow)
    (h : r ∈ mergedOutput biz ad inv) :
    ∃ b g adTot iv, r = buildRow b g adTot iv := by
  unfold mergedOutput at h
  rw [List.mem_flatMap] at h
  obtain ⟨b, _, hr⟩ := h
  simp only [mergeBlock] at hr
  cases hms : (adCampSummary ad).filter (fun g => g.asin == b.asin) with
  | nil =>
    rw [hms] at hr
    simp only [List.mem_singleton] at hr
    exact ⟨b, Option.none, _, _, hr⟩
  | cons g gs =>
    rw [hms] at hr
    simp only [List.mem_map] at hr
    obtain ⟨g', _, hg⟩ := hr
    exact ⟨b, some g', _, _, hg.symm⟩

theorem buildRow_guards (b : BizRow) (g : Option AdRow) (adTot : Frac)
    (iv : InvVal) :
    ((buildRow b g adTot iv).adSales = 0 → (buildRow b g adTot iv).acos = 0) ∧
    ((buildRow b g adTot iv).bizSales = 0 → (buildRow b g adTot iv).tacos = 0) ∧
    ((buildRow b g adTot iv).adSpend = 0 → (buildRow b g adTot iv).roas = 0) ∧
    ((buildRow b g adTot iv).bizSales = 0 →
      (buildRow b g adTot iv).adContribution = 0) ∧
    ((buildRow b g adTot iv).adImps = 0 → (buildRow b g adTot iv).ctr = 0) ∧
    ((buildRow b g adTot iv).adClicks = 0 → (buildRow b g adTot iv).cvr = 0) := by
  cases g with
  | none =>
    refine ⟨?_, ?_, ?_, ?_, ?_, ?_⟩ <;> intro h0 <;>
      simp only [buildRow] at h0 ⊢ <;> (try rw [h0]) <;> exact safeDiv_den_zero _
  | some x =>
    refine ⟨?_, ?_, ?_, ?_, ?_, ?_⟩ <;> intro h0 <;>
      simp only [buildRow] at h0 ⊢ <;> rw [h0] <;> exact safeDiv_den_zero _

/-! ### Claim theorems -/

/-- C1 (counterexample): the claim "every product identifier that appears in
any of the three source tables appears exactly once in the merged output" is
false for the code: the merges are left joins keyed on the business report
(`how='left'`, app.py lines 120-124), so the identifier "A1", present in the
advertising source but not in the business report, appears zero times — not
exactly once — in the merged output. -/
theorem C1_counterexample :
    "A1" ∈ ([⟨"c", "A1", 1, 1, 1, 1, 1⟩] : List AdRow).map AdRow.asin ∧
    (mergedOutput [⟨"B1", "T", 10⟩] [⟨"c", "A1", 1, 1, 1, 1, 1⟩]
      Option.none).countP (fun r => r.asin == "A1") = 0 ∧
    (0 : ℕ) ≠ 1 := by decide

/-- C1 (amended): the merge is left-keyed on the business report.  For every
identifier `a`, the number of merged rows carrying `a` equals the number of
business-report rows with identifier `a` times `max 1 k`, where `k` is the
number of (campaign, identifier) ad groups for `a`.  In particular every
business-report identifier is retained (with zero-filled ad/inventory fields
when unmatched), identifiers only in the advertising or inventory sources
are dropped, and an identifier spanning several campaigns or duplicated in
the business report appears multiple times. -/
theorem C1_amended_thm (biz : List BizRow) (ad : List AdRow)
    (inv : Option (List InvRow)) (a : String) :
    (mergedOutput biz ad inv).countP (fun r => r.asin == a)
      = biz.countP (fun b => b.asin == a)
        * max 1 ((adCampSummary ad).countP (fun g => g.asin == a)) := by
  induction biz with
  | nil => simp [mergedOutput]
  | cons b t ih =>
    simp only [mergedOutput, List.flatMap_cons, List.countP_append] at ih ⊢
    rw [countP_mergeBlock, ih, List.countP_cons]
    by_cases hba : (b.asin == a) = true
    · rw [if_pos hba]
      simp only [hba, if_true]
      ring
    · rw [if_neg hba]
      simp [hba]

/-- C2 (counterexample): the claim "inventory rows whose condition code
differs from the sellable sentinel contribute nothing to stock" is false for
the code: the inventory aggregation (app.py line 105) sums quantities with
no condition filter whatsoever, so an identifier whose only inventory row is
"Defective" with quantity 7 shows stock 7, not 0. -/
theorem C2_counterexample :
    (mergedOutput [⟨"X", "T", 0⟩] []
        (some [⟨"X", "Defective", 7⟩])).map MergedRow.inventory
      = [InvVal.qty 7] ∧
    InvVal.qty (7 : Frac) ≠ InvVal.qty 0 := by decide

/-- C2 (amended): the stock quantity looked up for an identifier is the sum
of the quantity column over ALL inventory rows of that identifier — the
condition-code column is never read, so non-sellable rows contribute fully
(and an identifier with no rows gets 0). -/
theorem C2_amended_thm (rows : List InvRow) (a : String) :
    lookupD (invSummary rows) a
      = Frac.sum ((rows.filter (fun r => r.asin == a)).map InvRow.qty) := by
  unfold invSummary
  rw [lookupD_map_keys]
  by_cases hmem : a ∈ sortKeys strLeB ((rows.map InvRow.asin).dedup)
  · rw [if_pos hmem]
  · rw [if_neg hmem]
    have hnone : rows.filter (fun r => r.asin == a) = [] := by
      rw [List.filter_eq_nil_iff]
      intro r hr hra
      exact hmem ((mem_sortKeys _ _ _).mpr (List.mem_dedup.mpr
        (List.mem_map.mpr ⟨r, hr, eq_of_beq hra⟩)))
    rw [hnone]
    rfl

/-- C3 (counterexample): the claim that the failure surfaced when no ASIN
column is found "includes the set of headers that were searched" is false:
the run does stop, but with the fixed warning text, which contains neither
the searched keyword "Advertised ASIN" nor the scanned input header
"Campaign Name". -/
theorem C3_counterexample :
    runApp ⟨["Campaign Name", "Spend"], []⟩ ⟨["(Child) ASIN", "Title"], []⟩
        Option.none = .stopped stopWarning ∧
    isSubListOf "Advertised ASIN".toList stopWarning.toList = false ∧
    isSubListOf "Campaign Name".toList stopWarning.toList = false := by decide

/-- C3 (amended): if no product-identifier column is found in the
advertising or the business report, the run halts at the validation gate
with the fixed generic warning — which does not name the searched headers —
and no unified table (not even a partial one) is emitted. -/
theorem C3_amended_thm (ad : AdInput) (biz : BizInput)
    (inv : Option (List InvRow))
    (h : find_robust_col ad.headers adAsinKeywords defaultExclude = Option.none ∨
      find_robust_col biz.headers bizAsinKeywords defaultExclude = Option.none) :
    runApp ad biz inv = .stopped stopWarning := by
  unfold runApp
  rcases h with h | h
  · rw [h]
  · rw [h]
    cases find_robust_col ad.headers adAsinKeywords defaultExclude <;> rfl

/-- C3 (witness): a concrete advertising report without any ASIN-like header
stops the run with the warning. -/
theorem C3_amended_witness :
    runApp ⟨["Campaign Name", "Spend"], []⟩ ⟨["(Child) ASIN", "Title"], []⟩
      Option.none = .stopped stopWarning :=
  C3_amended_thm ⟨["Campaign Name", "Spend"], []⟩ ⟨["(Child) ASIN", "Title"], []⟩
    Option.none (Or.inl (by decide))

/-- C4 (counterexample): the claim that `clean_numeric` returns 0 for every
non-parsing input "including NaN-like sentinels" is false: the float NaN
satisfies `isinstance(val, (int, float))` and is returned unchanged (app.py
line 24), not mapped to 0. -/
theorem C4_counterexample :
    clean_numeric .nan = .nan ∧ PyVal.nan ≠ .float 0 ∧ PyVal.nan ≠ .int 0 := by
  decide

/-- C4 (amended): `clean_numeric` is total and never raises: unparseable
strings such as "N/A" and non-string non-numeric values yield 0.0, and every
input yields a Python int, a numpy integer, a float, or NaN — but the float
NaN input itself is returned unchanged rather than mapped to 0. -/
theorem C4_amended_thm :
    clean_numeric (.str "N/A") = .float 0 ∧
    clean_numeric .none = .float 0 ∧
    clean_numeric .nan = .nan ∧
    ∀ v : PyVal, (∃ n, clean_numeric v = .int n) ∨
      (∃ n, clean_numeric v = .npInt n) ∨
      (∃ q, clean_numeric v = .float q) ∨ clean_numeric v = .nan := by
  refine ⟨by decide, by decide, rfl, ?_⟩
  intro v
  cases v with
  | str s =>
    simp only [clean_numeric]
    cases h : pyParseNumeric (cleanString s) with
    | none => exact Or.inr (Or.inr (Or.inl ⟨0, rfl⟩))
    | some v' =>
      rcases pyParseNumeric_shape _ _ h with ⟨n, rfl⟩ | ⟨q, rfl⟩ | rfl
      · exact Or.inr (Or.inl ⟨n, rfl⟩)
      · exact Or.inr (Or.inr (Or.inl ⟨q, rfl⟩))
      · exact Or.inr (Or.inr (Or.inr rfl))
  | int n => exact Or.inl ⟨n, rfl⟩
  | npInt n => exact Or.inr (Or.inr (Or.inl ⟨0, rfl⟩))
  | float q => exact Or.inr (Or.inr (Or.inl ⟨q, rfl⟩))
  | nan => exact Or.inr (Or.inr (Or.inr rfl))
  | none => exact Or.inr (Or.inr (Or.inl ⟨0, rfl⟩))

/-- C5 (counterexample): the claim that the normalizer strips a trailing
percent sign so that "12%" yields 12 is false: `clean_numeric` strips only
'AED', '$', non-breaking spaces and commas (app.py line 21), so "12%" fails
to parse and yields 0. -/
theorem C5_counterexample :
    clean_numeric (.str "12%") = .float 0 ∧ PyVal.float 0 ≠ .float 12 ∧
    PyVal.float 0 ≠ .int 12 := by decide

/-- C5 (amended): the normalizer strips the currency token "AED" and the
dollar sign, thousands-separator commas, non-breaking spaces, and
surrounding whitespace before the parse — so "AED 1,234.50" yields 1234.50,
"$0" yields the (numpy) integer 0, and a leading "AED " never changes the
result — but it does not strip percent signs, so "12%" yields 0, not 12. -/
theorem C5_amended_thm :
    (∀ s : String, clean_numeric (.str ("AED " ++ s)) = clean_numeric (.str s)) ∧
    clean_numeric (.str "AED 1,234.50") = .float ((2469 : Frac) / 2) ∧
    clean_numeric (.str "$0") = .npInt 0 ∧
    clean_numeric (.str "12%") = .float 0 := by
  refine ⟨?_, by decide, by decide, by decide⟩
  intro s
  simp only [clean_numeric, cleanString_aed]

/-- C6 (counterexample): the idempotence claim is false for the code: on the
string "12", `pd.to_numeric` returns a `numpy.int64` scalar, which fails the
`isinstance(val, (int, float))` test on re-entry because `numpy.int64` does
not subclass `int`, so `clean_numeric(clean_numeric("12"))` is `0.0` while
`clean_numeric("12")` is 12. -/
theorem C6_counterexample :
    clean_numeric (.str "12") = .npInt 12 ∧
    clean_numeric (clean_numeric (.str "12")) = .float 0 ∧
    PyVal.float 0 ≠ PyVal.npInt 12 := by decide

/-- C6 (amended): the normalizer is idempotent on every input except those
it normalizes to a numpy integer: for each input `v` either
`clean_numeric (clean_numeric v) = clean_numeric v`, or the first
application produced a `numpy.int64` scalar (a string parsing as an integer
literal) and the second application collapses it to `0.0`, because
`numpy.int64` fails the `isinstance(val, (int, float))` test. -/
theorem C6_amended_thm (v : PyVal) :
    clean_numeric (clean_numeric v) = clean_numeric v ∨
    (∃ n, clean_numeric v = .npInt n ∧
      clean_numeric (clean_numeric v) = .float 0) := by
  cases v with
  | str s =>
    simp only [clean_numeric]
    cases h : pyParseNumeric (cleanString s) with
    | none => exact Or.inl rfl
    | some v' =>
      rcases pyParseNumeric_shape _ _ h with ⟨n, rfl⟩ | ⟨q, rfl⟩ | rfl
      · exact Or.inr ⟨n, rfl, rfl⟩
      · exact Or.inl rfl
      · exact Or.inl rfl
  | int n => exact Or.inl rfl
  | npInt n => exact Or.inl rfl
  | float q => exact Or.inl rfl
  | nan => exact Or.inl rfl
  | none => exact Or.inl rfl

/-- C7: every derived ratio column of every merged row is guarded — it
equals 0 whenever its denominator is 0 (the pandas `inf`/`NaN` results of a
zero denominator are replaced by 0 at app.py lines 133-139): ACOS when ad
sales are 0, TACOS and ad contribution when gross sales are 0, ROAS when ad
spend is 0, CTR when impressions are 0, and CVR when clicks are 0. -/
theorem C7_thm (biz : List BizRow) (ad : List AdRow)
    (inv : Option (List InvRow)) (r : MergedRow)
    (h : r ∈ mergedOutput biz ad inv) :
    (r.adSales = 0 → r.acos = 0) ∧ (r.bizSales = 0 → r.tacos = 0) ∧
    (r.adSpend = 0 → r.roas = 0) ∧ (r.bizSales = 0 → r.adContribution = 0) ∧
    (r.adImps = 0 → r.ctr = 0) ∧ (r.adClicks = 0 → r.cvr = 0) := by
  obtain ⟨b, g, adTot, iv, rfl⟩ := mem_mergedOutput biz ad inv r h
  exact buildRow_guards b g adTot iv

/-- C7 (witness): the claim's concrete case — a product with gross sales 0
and ad spend 5 gets TACOS = 0, not an exception, infinity or NaN. -/
theorem C7_witness :
    (buildRow ⟨"B1", "T", 0⟩ (some ⟨"c", "B1", 0, 5, 0, 0, 0⟩) 0 InvVal.noFile
        ∈ mergedOutput [⟨"B1", "T", 0⟩] [⟨"c", "B1", 0, 5, 0, 0, 0⟩]
          Option.none) ∧
    (buildRow ⟨"B1", "T", 0⟩ (some ⟨"c", "B1", 0, 5, 0, 0, 0⟩) 0
      InvVal.noFile).tacos = 0 :=
  ⟨by decide,
    (C7_thm [⟨"B1", "T", 0⟩] [⟨"c", "B1", 0, 5, 0, 0, 0⟩] Option.none _
      (by decide)).2.1 (by decide)⟩

/-- C8: the brand-tab dashboard computes ACOS as a ratio of the brand's
summed spend and summed ad sales (app.py lines 151-167 applied to the
brand-filtered raw ad rows of lines 175-184), never as a mean of per-product
ratios: for two same-brand products with (spend 10, ad sales 100) and
(spend 5, ad sales 5) the displayed brand ACOS is (10+5)/(100+5), which
differs from the mean of 10/100 and 5/5. -/
theorem C8_thm :
    display_metrics_ACOS (brandAdSegment
        [⟨"A1", "CL_One", 100⟩, ⟨"A2", "CL_Two", 5⟩]
        [⟨"c1", "A1", 100, 10, 0, 0, 0⟩, ⟨"c2", "A2", 5, 5, 0, 0, 0⟩]
        Option.none "Creation Lamis")
      = (10 + 5) / (100 + 5) ∧
    ((10 + 5) / (100 + 5) : Frac)
      ≠ ((10 : Frac) / 100 + (5 : Frac) / 5) / 2 := by decide

/-- C9: brand classification is a pure function of the input text, and when
the signal predicates of two distinct brands both fire on the normalized
scan text, the brand declared earliest in `BRAND_MAP` (the first whose
signal fires) is returned. -/
theorem C9_thm (name : String) (i j : Fin BRAND_MAP.length)
    (_hij : i.val < j.val)
    (hi : brandHit (BRAND_MAP.get i).1 (BRAND_MAP.get i).2 (normScan name)
      = true)
    (_hj : brandHit (BRAND_MAP.get j).1 (BRAND_MAP.get j).2 (normScan name)
      = true)
    (hmin : ∀ k : Fin BRAND_MAP.length, k.val < i.val →
      brandHit (BRAND_MAP.get k).1 (BRAND_MAP.get k).2 (normScan name)
        = false) :
    get_brand_robust (some name) = (BRAND_MAP.get i).2 := by
  have hf := find?_eq_get_of_earliest
    (fun br => brandHit br.1 br.2 (normScan name)) BRAND_MAP i hi hmin
  simp only [get_brand_robust, hf]

/-- C9 (witness): "CL_ PARIS COLLECTION" fires both the Creation Lamis
prefix signal (index 1) and the Paris Collection full-name signal (index 3);
the earlier-declared Creation Lamis wins. -/
theorem C9_witness :
    get_brand_robust (some "CL_ PARIS COLLECTION") = "Creation Lamis" :=
  C9_thm "CL_ PARIS COLLECTION" ⟨1, by decide⟩ ⟨3, by decide⟩ (by decide)
    (by decide) (by decide) (by decide)

/-- C10: with the default exclude list, `find_robust_col` never returns a
header whose cleaned (stripped, lowercased) form contains any of the
exclusion terms 'acos', 'roas', 'cpc', 'ctr', 'rate', 'new-to-brand' as a
substring, even when a requested keyword also occurs in that header. -/
theorem C10_thm (cols keywords : List String) (c : String)
    (h : find_robust_col cols keywords defaultExclude = some c) :
    defaultExclude.all
      (fun ex => !(isSubListOf (pyLowerL ex.toList) (headerClean c))) = true := by
  have hp := List.find?_some h
  simp only [Bool.and_eq_true, Bool.not_eq_true'] at hp
  rw [List.all_eq_true]
  intro ex hex
  have h2 := hp.2
  rw [List.any_eq_false] at h2
  simpa using h2 ex hex

/-- C10 (witness): with keyword "Total", the header "Total ACOS" is skipped
in favor of the later "Total Sales", and the returned header contains no
exclusion term. -/
theorem C10_witness :
    find_robust_col ["Total ACOS", "Total Sales"] ["Total"] defaultExclude
      = some "Total Sales" ∧
    defaultExclude.all
      (fun ex => !(isSubListOf (pyLowerL ex.toList)
        (headerClean "Total Sales"))) = true :=
  ⟨by decide,
    C10_thm ["Total ACOS", "Total Sales"] ["Total"] "Total Sales" (by decide)⟩

end AsinWise
